import Mathlib

/-!
Shallow embedding of the basketball-analysis server
(`bball-web/railway-server/app.py`): the `BasketballTracker` class
(`update`, `detect_shot`, `analyze_shot_outcome`), the ball localizer
`detect_basketball_in_frame`, and the `/analyze` per-frame loop with its
summary computation.  Machine floats (timestamps, normalized positions,
percentages) are modelled as rationals; pixel coordinates are integers.
-/

namespace BBall

/-- A pixel position `(x, y)`, as produced by the localizer (`int` casts in
the source). -/
abbrev Position := Int × Int

/-- One detected shot, as assembled in the `/analyze` loop (`shot_data`
dict): timestamp, normalized position, result string, fixed confidence,
and the index of the frame at which it was detected. -/
structure ShotRecord where
  timestamp : ℚ
  pos_x : ℚ
  pos_y : ℚ
  result : String
  confidence : ℚ
  frame_index : Nat
deriving DecidableEq

/-- One entry of `BasketballTracker.trajectory`: the dict appended by
`update`, with `x`/`y` duplicated from the position. -/
structure TrajectorySample where
  position : Position
  timestamp : ℚ
  x : Int
  y : Int
deriving DecidableEq

/-- State of `BasketballTracker` (`__init__` fields). -/
structure BasketballTracker where
  trajectory : List TrajectorySample
  last_position : Option Position
  shot_threshold : Int
  shots : List ShotRecord
deriving DecidableEq

/-- `BasketballTracker.__init__`: empty trajectory, no last position,
threshold 30, empty shots list. -/
def BasketballTracker.init : BasketballTracker :=
  { trajectory := [], last_position := none, shot_threshold := 30, shots := [] }

/-- `BasketballTracker.update(position, timestamp)`: returns unchanged on
`None`; otherwise appends the sample, pops the oldest entry when the
window exceeds 50, and records the last position. -/
def BasketballTracker.update (t : BasketballTracker) (position : Option Position)
    (timestamp : ℚ) : BasketballTracker :=
  match position with
  | none => t
  | some p =>
    let appended := t.trajectory ++ [{ position := p, timestamp := timestamp, x := p.1, y := p.2 }]
    { t with
      trajectory := if appended.length > 50 then appended.tail else appended
      last_position := some p }

/-- The `y_changes` list built by `detect_shot`:
`recent[i].y - recent[i-1].y` for `i = 1 .. len-1`. -/
def yChanges : List TrajectorySample → List Int
  | a :: b :: rest => (b.y - a.y) :: yChanges (b :: rest)
  | _ => []

/-- The scan loop of `detect_shot`: return true at the first index `i ≥ 1`
with `y_changes[i-1] < -thr` and `y_changes[i] > thr`. -/
def hasReversal (thr : Int) : List Int → Bool
  | a :: b :: rest =>
    if a < -thr ∧ thr < b then true else hasReversal thr (b :: rest)
  | _ => false

/-- `BasketballTracker.detect_shot()`: false on fewer than 5 samples,
otherwise scan the vertical deltas of the last 5 samples for an
up-to-down reversal exceeding the threshold. -/
def BasketballTracker.detect_shot (t : BasketballTracker) : Bool :=
  if t.trajectory.length < 5 then false
  else hasReversal t.shot_threshold
    (yChanges (t.trajectory.drop (t.trajectory.length - 5)))

/-- `detect_shot` as an explicit state-passing method: the translation of
the method body threading `self` through, returning the boolean together
with the (untouched) receiver state. -/
def BasketballTracker.detect_shot_st (t : BasketballTracker) : Bool × BasketballTracker :=
  if t.trajectory.length < 5 then (false, t)
  else
    (hasReversal t.shot_threshold
      (yChanges (t.trajectory.drop (t.trajectory.length - 5))), t)

/-- `BasketballTracker.analyze_shot_outcome(peak_position)`: a method that
reads no instance state; inclusive rectangle test against the fixed goal
area `x ∈ [200, 280]`, `y ∈ [50, 120]`. -/
def analyze_shot_outcome (peak_position : Position) : String :=
  let goal_area_x : Int × Int := (200, 280)
  let goal_area_y : Int × Int := (50, 120)
  if goal_area_x.1 ≤ peak_position.1 ∧ peak_position.1 ≤ goal_area_x.2 ∧
     goal_area_y.1 ≤ peak_position.2 ∧ peak_position.2 ≤ goal_area_y.2 then
    "make"
  else
    "miss"

/-- The y coordinates of the last five trajectory samples
(`[s['y'] for s in trajectory[-5:]]`), used to state the `detect_shot`
specification. -/
def lastFiveYs (t : BasketballTracker) : List Int :=
  (t.trajectory.drop (t.trajectory.length - 5)).map (fun s => s.y)

/-- The image-processing operations `detect_basketball_in_frame` calls on
the OpenCV library, over abstract frame/mask/contour types.  Each call may
fail (raise), which the embedding records as `Except`.  A circle is a
triple `(center_x, center_y, radius)`; `houghCircles` returns `none` for a
`None` result and `some` of the rounded circle list otherwise; `moments`
returns `(m00, m10, m01)` as rationals. -/
structure CVOps (Frame Hsv Mask Contour : Type) where
  cvtColor : Frame → Except String Hsv
  inRange : Hsv → Except String Mask
  morphOpen : Mask → Except String Mask
  morphClose : Mask → Except String Mask
  houghCircles : Mask → Except String (Option (List (Int × Int × Int)))
  findContours : Mask → Except String (List Contour)
  contourArea : Contour → Except String ℚ
  moments : Contour → Except String (ℚ × ℚ × ℚ)

/-- Python `max(xs, key=key)` over a nonempty list given as head and tail:
left fold keeping the first maximal element. -/
def pyMax {α β : Type} [LT β] [DecidableRel (LT.lt : β → β → Prop)]
    (key : α → β) (a : α) (l : List α) : α :=
  l.foldl (fun best c => if key best < key c then c else best) a

/-- Python `int()` applied to a rational: truncation toward zero. -/
def ratTrunc (q : ℚ) : Int :=
  q.num / (q.den : Int)

/-- The contour fallback of `detect_basketball_in_frame`: external
contours of the mask; if any, take the one of maximal area; if its area
exceeds 100, return the moment centroid guarded by `m00 != 0`; otherwise
no detection. -/
def contourFallback {F H M C : Type} (ops : CVOps F H M C) (mask : M) :
    Except String (Option (Int × Int)) := do
  let contours ← ops.findContours mask
  match contours with
  | [] => return none
  | c :: rest => do
    let a0 ← ops.contourArea c
    let pairs ← rest.mapM (fun k => do
      let a ← ops.contourArea k
      return (k, a))
    let largest := (pyMax (fun p => p.2) (c, a0) pairs).1
    let a2 ← ops.contourArea largest
    if a2 > 100 then
      let m ← ops.moments largest
      if m.1 ≠ 0 then
        return some (ratTrunc (m.2.1 / m.1), ratTrunc (m.2.2 / m.1))
      else
        return none
    else
      return none

/-- The body of `detect_basketball_in_frame` before its `except` handler:
HSV conversion, orange mask, open/close morphology, Hough-circle search
(largest radius wins), and the contour fallback. -/
def detect_pipeline {F H M C : Type} (ops : CVOps F H M C) (frame : F) :
    Except String (Option (Int × Int)) := do
  let hsv ← ops.cvtColor frame
  let mask ← ops.inRange hsv
  let mask ← ops.morphOpen mask
  let mask ← ops.morphClose mask
  let circles ← ops.houghCircles mask
  match circles with
  | some (c :: rest) =>
    let largest := pyMax (fun circ : Int × Int × Int => circ.2.2) c rest
    return some (largest.1, largest.2.1)
  | some [] => contourFallback ops mask
  | none => contourFallback ops mask

/-- `detect_basketball_in_frame(frame)`: runs the pipeline and converts
any raised failure into "no detection" (`none`). -/
def detect_basketball_in_frame {F H M C : Type} (ops : CVOps F H M C) (frame : F) :
    Option (Int × Int) :=
  match detect_pipeline ops frame with
  | Except.ok r => r
  | Except.error _ => none

/-- One frame descriptor of the `/analyze` request, abstracted past the
transport layer: whether the base64 payload decoded to an image
(`decoded`), the ball position `detect_basketball_in_frame` yields on the
decoded image (`ball`), the optional caller timestamp, and the claimed
width and height. -/
structure FrameInfo where
  decoded : Bool
  ball : Option Position
  timestamp : Option ℚ
  width : Int
  height : Int
deriving DecidableEq

/-- The summary dict computed at the end of `analyze_frames`. -/
structure Summary where
  total_attempts : Nat
  makes : Nat
  misses : Nat
  fg_percentage : ℚ
deriving DecidableEq

/-- The result payload of `analyze_frames` (shots list and summary). -/
structure AnalysisResult where
  shots : List ShotRecord
  summary : Summary
deriving DecidableEq

/-- One iteration of the `/analyze` frame loop at index `i`: skip
undecoded frames; otherwise default the timestamp to `i * 500`, update
the tracker, and on a detected shot with a known last position append the
shot record built from it. -/
def stepFrame (tr : BasketballTracker) (shots : List ShotRecord)
    (i : Nat) (f : FrameInfo) : BasketballTracker × List ShotRecord :=
  if f.decoded then
    let ts := f.timestamp.getD ((i : ℚ) * 500)
    let tr2 := tr.update f.ball ts
    if tr2.detect_shot then
      match tr2.last_position with
      | some peak =>
        (tr2, shots ++ [{ timestamp := ts
                        , pos_x := (peak.1 : ℚ) / (f.width : ℚ)
                        , pos_y := (peak.2 : ℚ) / (f.height : ℚ)
                        , result := analyze_shot_outcome peak
                        , confidence := 0.75
                        , frame_index := i }])
      | none => (tr2, shots)
    else (tr2, shots)
  else (tr, shots)

/-- The `for i, frame_info in enumerate(frames_data)` loop of
`analyze_frames`, carrying the tracker and the `detected_shots` list. -/
def analyzeLoop : Nat → BasketballTracker → List ShotRecord → List FrameInfo →
    BasketballTracker × List ShotRecord
  | _, tr, shots, [] => (tr, shots)
  | i, tr, shots, f :: rest =>
    let acc := stepFrame tr shots i f
    analyzeLoop (i + 1) acc.1 acc.2 rest

/-- `analyze_frames`: run the frame loop from a fresh tracker, then
compute the summary (`total_attempts`, `makes`, `misses`,
`fg_percentage`). -/
def analyze_frames (frames : List FrameInfo) : AnalysisResult :=
  let detected_shots := (analyzeLoop 0 BasketballTracker.init [] frames).2
  let total_attempts := detected_shots.length
  let makes := detected_shots.countP (fun shot => shot.result == "make")
  let misses := total_attempts - makes
  { shots := detected_shots
  , summary :=
    { total_attempts := total_attempts
    , makes := makes
    , misses := misses
    , fg_percentage :=
        if total_attempts > 0 then (makes : ℚ) / (total_attempts : ℚ) * 100 else 0 } }

/-- Fold a sequence of `(position, timestamp)` update calls over a fresh
tracker. -/
def runTracker (calls : List (Option Position × ℚ)) : BasketballTracker :=
  calls.foldl (fun t c => t.update c.1 c.2) BasketballTracker.init

lemma hasReversal_eq_true_iff (thr : Int) :
    ∀ l : List Int, hasReversal thr l = true ↔
      ∃ i : Nat, i + 1 < l.length ∧ l.getD i 0 < -thr ∧ thr < l.getD (i + 1) 0
  | [] => by simp [hasReversal]
  | [a] => by simp [hasReversal]
  | a :: b :: rest => by
    have ih := hasReversal_eq_true_iff thr (b :: rest)
    by_cases h : a < -thr ∧ thr < b
    · simp only [hasReversal, if_pos h]
      constructor
      · intro _
        refine ⟨0, ?_, by simpa using h.1, by simpa using h.2⟩
        simp only [List.length_cons]
        omega
      · intro _
        trivial
    · simp only [hasReversal, if_neg h]
      rw [ih]
      constructor
      · rintro ⟨j, hj, h1, h2⟩
        refine ⟨j + 1, ?_, by simpa using h1, by simpa using h2⟩
        simp only [List.length_cons] at hj ⊢
        omega
      · rintro ⟨i, hi, h1, h2⟩
        cases i with
        | zero =>
          exact absurd ⟨by simpa using h1, by simpa using h2⟩ h
        | succ j =>
          refine ⟨j, ?_, by simpa using h1, by simpa using h2⟩
          simp only [List.length_cons] at hi ⊢
          omega

lemma yChanges_length :
    ∀ l : List TrajectorySample, (yChanges l).length = l.length - 1
  | [] => by simp [yChanges]
  | [_] => by simp [yChanges]
  | a :: b :: rest => by
    have ih := yChanges_length (b :: rest)
    simp only [yChanges, List.length_cons] at ih ⊢
    omega

lemma yChanges_getD :
    ∀ (l : List TrajectorySample) (i : Nat), i + 1 < l.length →
      (yChanges l).getD i 0 =
        (l.map (fun s => s.y)).getD (i + 1) 0 - (l.map (fun s => s.y)).getD i 0
  | [], i, h => by simp at h
  | [_], i, h => by simp at h
  | a :: b :: rest, 0, _ => by simp [yChanges]
  | a :: b :: rest, j + 1, h => by
    have ih := yChanges_getD (b :: rest) j (by simp only [List.length_cons] at h ⊢; omega)
    simp only [yChanges, List.getD_cons_succ, List.map_cons] at ih ⊢
    exact ih

/-- C1: `detect_shot()` is true exactly when the window holds at least 5
samples and some consecutive pair of the 4 vertical deltas of the last 5
samples has its first delta strictly below −30 and its second strictly
above +30; in particular it is false on fewer than 5 samples. -/
theorem c1_detect_shot_spec (t : BasketballTracker) (hthr : t.shot_threshold = 30) :
    (t.detect_shot = true ↔
      5 ≤ t.trajectory.length ∧
      ∃ i : Nat, i + 2 < (lastFiveYs t).length ∧
        (lastFiveYs t).getD (i + 1) 0 - (lastFiveYs t).getD i 0 < -30 ∧
        30 < (lastFiveYs t).getD (i + 2) 0 - (lastFiveYs t).getD (i + 1) 0) ∧
    (t.trajectory.length < 5 → t.detect_shot = false) := by
  constructor
  · by_cases hlen : t.trajectory.length < 5
    · rw [BasketballTracker.detect_shot, if_pos hlen]
      simp only [Bool.false_eq_true, false_iff, not_and]
      intro h5
      omega
    · rw [BasketballTracker.detect_shot, if_neg hlen, hthr]
      push_neg at hlen
      have hreclen : (t.trajectory.drop (t.trajectory.length - 5)).length = 5 := by
        rw [List.length_drop]
        omega
      have hys : lastFiveYs t =
          (t.trajectory.drop (t.trajectory.length - 5)).map (fun s => s.y) := rfl
      rw [hasReversal_eq_true_iff]
      have hylen : (yChanges (t.trajectory.drop (t.trajectory.length - 5))).length = 4 := by
        rw [yChanges_length, hreclen]
      constructor
      · rintro ⟨i, hi, h1, h2⟩
        rw [hylen] at hi
        have e1 := yChanges_getD (t.trajectory.drop (t.trajectory.length - 5)) i
          (by rw [hreclen]; omega)
        have e2 := yChanges_getD (t.trajectory.drop (t.trajectory.length - 5)) (i + 1)
          (by rw [hreclen]; omega)
        refine ⟨hlen, i, ?_, ?_, ?_⟩
        · rw [hys, List.length_map, hreclen]
          omega
        · rw [hys]
          rw [e1] at h1
          exact h1
        · rw [hys]
          rw [e2] at h2
          exact h2
      · rintro ⟨-, i, hi, h1, h2⟩
        rw [hys, List.length_map, hreclen] at hi
        have e1 := yChanges_getD (t.trajectory.drop (t.trajectory.length - 5)) i
          (by rw [hreclen]; omega)
        have e2 := yChanges_getD (t.trajectory.drop (t.trajectory.length - 5)) (i + 1)
          (by rw [hreclen]; omega)
        refine ⟨i, ?_, ?_, ?_⟩
        · rw [hylen]
          omega
        · rw [e1]
          rw [hys] at h1
          exact h1
        · rw [e2]
          rw [hys] at h2
          exact h2
  · intro hlt
    rw [BasketballTracker.detect_shot, if_pos hlt]

/-- A concrete tracker whose last five y values are
`[100, 60, 100, 0, 0]` (deltas `[-40, 40, -100, 0]`), so the reversal
pair `(-40, 40)` qualifies. -/
def c1Tracker : BasketballTracker :=
  { trajectory :=
      [ { position := (0, 100), timestamp := 0, x := 0, y := 100 }
      , { position := (0, 60), timestamp := 1, x := 0, y := 60 }
      , { position := (0, 100), timestamp := 2, x := 0, y := 100 }
      , { position := (0, 0), timestamp := 3, x := 0, y := 0 }
      , { position := (0, 0), timestamp := 4, x := 0, y := 0 } ]
  , last_position := some (0, 0)
  , shot_threshold := 30
  , shots := [] }

/-- Witness for C1 at a concrete 5-sample tracker. -/
theorem c1_witness :
    (c1Tracker.detect_shot = true ↔
      5 ≤ c1Tracker.trajectory.length ∧
      ∃ i : Nat, i + 2 < (lastFiveYs c1Tracker).length ∧
        (lastFiveYs c1Tracker).getD (i + 1) 0 - (lastFiveYs c1Tracker).getD i 0 < -30 ∧
        30 < (lastFiveYs c1Tracker).getD (i + 2) 0 - (lastFiveYs c1Tracker).getD (i + 1) 0) ∧
    (c1Tracker.trajectory.length < 5 → c1Tracker.detect_shot = false) :=
  c1_detect_shot_spec c1Tracker rfl

/-- C3: `analyze_shot_outcome` returns `"make"` exactly on the inclusive
rectangle `200 ≤ x ≤ 280`, `50 ≤ y ≤ 120`, returns `"miss"` otherwise,
and in particular classifies `(200,50)` and `(280,120)` as makes and
`(199,50)` as a miss. -/
theorem c3_classify_spec :
    (∀ p : Position,
      (analyze_shot_outcome p = "make" ↔
        200 ≤ p.1 ∧ p.1 ≤ 280 ∧ 50 ≤ p.2 ∧ p.2 ≤ 120) ∧
      (analyze_shot_outcome p = "make" ∨ analyze_shot_outcome p = "miss")) ∧
    analyze_shot_outcome (200, 50) = "make" ∧
    analyze_shot_outcome (280, 120) = "make" ∧
    analyze_shot_outcome (199, 50) = "miss" := by
  refine ⟨fun p => ⟨?_, ?_⟩, rfl, rfl, rfl⟩
  · simp only [analyze_shot_outcome]
    split_ifs with hc
    · exact iff_of_true rfl hc
    · exact iff_of_false (by decide) hc
  · simp only [analyze_shot_outcome]
    split_ifs
    · exact Or.inl rfl
    · exact Or.inr rfl

/-- C4: in the result of `analyze_frames`, `total_attempts` is the length
of the shots list, `makes` counts the `"make"` records, `misses` is their
difference, and `fg_percentage` is `makes / total_attempts * 100` for a
nonempty shots list and `0` otherwise. -/
theorem c4_summary_spec (frames : List FrameInfo) :
    (analyze_frames frames).summary.total_attempts = (analyze_frames frames).shots.length ∧
    (analyze_frames frames).summary.makes =
      ((analyze_frames frames).shots.filter (fun s => s.result == "make")).length ∧
    (analyze_frames frames).summary.misses =
      (analyze_frames frames).summary.total_attempts - (analyze_frames frames).summary.makes ∧
    (analyze_frames frames).summary.fg_percentage =
      (if (analyze_frames frames).shots.length = 0 then 0
       else ((analyze_frames frames).summary.makes : ℚ) /
         ((analyze_frames frames).shots.length : ℚ) * 100) := by
  refine ⟨rfl, List.countP_eq_length_filter _ _, rfl, ?_⟩
  have hfg : (analyze_frames frames).summary.fg_percentage =
      (if (analyze_frames frames).shots.length > 0
       then ((analyze_frames frames).summary.makes : ℚ) /
         ((analyze_frames frames).shots.length : ℚ) * 100
       else 0) := rfl
  rw [hfg]
  by_cases h : (analyze_frames frames).shots.length = 0
  · rw [if_neg (by omega), if_pos h]
  · rw [if_pos (by omega), if_neg h]

/-- A decoded frame with one detection and no caller timestamp. -/
def c2F (x y w h : Int) : FrameInfo :=
  { decoded := true, ball := some (x, y), timestamp := none, width := w, height := h }

/-- The trajectory sample recorded for a detection at frame index `k`
with the default timestamp `k * 500`. -/
def c2S (k : Nat) (x y : Int) : TrajectorySample :=
  { position := (x, y), timestamp := (k : ℚ) * 500, x := x, y := y }

/-- The six-frame batch of the end-to-end scenario: one detection per
frame with y values `[150, 110, 70, 40, 90, 150]`, no caller timestamps,
at the stated 480×360 resolution. -/
def c2Batch (x0 x1 x2 x3 x4 x5 w h : Int) : List FrameInfo :=
  [ c2F x0 150 w h, c2F x1 110 w h, c2F x2 70 w h
  , c2F x3 40 w h, c2F x4 90 w h, c2F x5 150 w h ]

/-- C2 counterexample: on the fixture batch the analysis detects no shot
at all — the third delta is exactly −30 and the comparison is strict — so
`total_attempts` is 0, not 1. -/
theorem c2_counterexample :
    (analyze_frames (c2Batch 240 240 240 240 240 240 480 360)).shots = [] ∧
    (analyze_frames (c2Batch 240 240 240 240 240 240 480 360)).summary.total_attempts ≠ 1 :=
  ⟨rfl, by decide⟩

/-- C2 amended: for any batch of 6 decoded frames with one detection per
frame whose y values are `[150, 110, 70, 40, 90, 150]` and no caller
timestamps, the analysis produces no `ShotRecord` and `total_attempts`
is 0. -/
theorem c2_amended_no_shot (x0 x1 x2 x3 x4 x5 w h : Int) :
    (analyze_frames (c2Batch x0 x1 x2 x3 x4 x5 w h)).shots = [] ∧
    (analyze_frames (c2Batch x0 x1 x2 x3 x4 x5 w h)).summary.total_attempts = 0 := by
  have h0 : analyzeLoop 0 BasketballTracker.init [] (c2Batch x0 x1 x2 x3 x4 x5 w h) =
      analyzeLoop 1 ⟨[c2S 0 x0 150], some (x0, 150), 30, []⟩ []
        [c2F x1 110 w h, c2F x2 70 w h, c2F x3 40 w h, c2F x4 90 w h, c2F x5 150 w h] := rfl
  have h1 : analyzeLoop 1 ⟨[c2S 0 x0 150], some (x0, 150), 30, []⟩ []
        [c2F x1 110 w h, c2F x2 70 w h, c2F x3 40 w h, c2F x4 90 w h, c2F x5 150 w h] =
      analyzeLoop 2 ⟨[c2S 0 x0 150, c2S 1 x1 110], some (x1, 110), 30, []⟩ []
        [c2F x2 70 w h, c2F x3 40 w h, c2F x4 90 w h, c2F x5 150 w h] := rfl
  have h2 : analyzeLoop 2 ⟨[c2S 0 x0 150, c2S 1 x1 110], some (x1, 110), 30, []⟩ []
        [c2F x2 70 w h, c2F x3 40 w h, c2F x4 90 w h, c2F x5 150 w h] =
      analyzeLoop 3 ⟨[c2S 0 x0 150, c2S 1 x1 110, c2S 2 x2 70], some (x2, 70), 30, []⟩ []
        [c2F x3 40 w h, c2F x4 90 w h, c2F x5 150 w h] := rfl
  have h3 : analyzeLoop 3 ⟨[c2S 0 x0 150, c2S 1 x1 110, c2S 2 x2 70], some (x2, 70), 30, []⟩ []
        [c2F x3 40 w h, c2F x4 90 w h, c2F x5 150 w h] =
      analyzeLoop 4
        ⟨[c2S 0 x0 150, c2S 1 x1 110, c2S 2 x2 70, c2S 3 x3 40], some (x3, 40), 30, []⟩ []
        [c2F x4 90 w h, c2F x5 150 w h] := rfl
  have h4 : analyzeLoop 4
        ⟨[c2S 0 x0 150, c2S 1 x1 110, c2S 2 x2 70, c2S 3 x3 40], some (x3, 40), 30, []⟩ []
        [c2F x4 90 w h, c2F x5 150 w h] =
      analyzeLoop 5
        ⟨[c2S 0 x0 150, c2S 1 x1 110, c2S 2 x2 70, c2S 3 x3 40, c2S 4 x4 90],
          some (x4, 90), 30, []⟩ []
        [c2F x5 150 w h] := rfl
  have h5 : analyzeLoop 5
        ⟨[c2S 0 x0 150, c2S 1 x1 110, c2S 2 x2 70, c2S 3 x3 40, c2S 4 x4 90],
          some (x4, 90), 30, []⟩ []
        [c2F x5 150 w h] =
      (⟨[c2S 0 x0 150, c2S 1 x1 110, c2S 2 x2 70, c2S 3 x3 40, c2S 4 x4 90, c2S 5 x5 150],
          some (x5, 150), 30, []⟩, []) := rfl
  have hshots : (analyze_frames (c2Batch x0 x1 x2 x3 x4 x5 w h)).shots = [] := by
    have hview : (analyze_frames (c2Batch x0 x1 x2 x3 x4 x5 w h)).shots =
        (analyzeLoop 0 BasketballTracker.init [] (c2Batch x0 x1 x2 x3 x4 x5 w h)).2 := by
      simp only [analyze_frames]
    rw [hview, h0, h1, h2, h3, h4, h5]
  refine ⟨hshots, ?_⟩
  have hview2 : (analyze_frames (c2Batch x0 x1 x2 x3 x4 x5 w h)).summary.total_attempts =
      (analyzeLoop 0 BasketballTracker.init [] (c2Batch x0 x1 x2 x3 x4 x5 w h)).2.length := by
    simp only [analyze_frames]
  rw [hview2, h0, h1, h2, h3, h4, h5]
  rfl

lemma update_length_le (t : BasketballTracker) (pos : Option Position) (ts : ℚ)
    (h : t.trajectory.length ≤ 50) : (t.update pos ts).trajectory.length ≤ 50 := by
  cases pos with
  | none => exact h
  | some p =>
    simp only [BasketballTracker.update]
    split_ifs with hgt
    · rw [List.length_tail]
      simp only [List.length_append, List.length_cons, List.length_nil]
      omega
    · simp only [List.length_append, List.length_cons, List.length_nil] at hgt ⊢
      omega

lemma foldl_update_length_le :
    ∀ (calls : List (Option Position × ℚ)) (t : BasketballTracker),
      t.trajectory.length ≤ 50 →
      (calls.foldl (fun t c => t.update c.1 c.2) t).trajectory.length ≤ 50
  | [], _, h => h
  | c :: rest, t, h =>
    foldl_update_length_le rest (t.update c.1 c.2) (update_length_le t c.1 c.2 h)

/-- C5: from a fresh tracker the window never exceeds 50 samples; an
append onto a full window drops exactly the oldest sample (keeping the
rest in insertion order, new sample last), and an append onto a window
below capacity keeps every sample. -/
theorem c5_window_spec :
    (∀ calls : List (Option Position × ℚ), (runTracker calls).trajectory.length ≤ 50) ∧
    (∀ (t : BasketballTracker) (p : Position) (ts : ℚ), 50 ≤ t.trajectory.length →
      (t.update (some p) ts).trajectory =
        t.trajectory.tail ++ [{ position := p, timestamp := ts, x := p.1, y := p.2 }]) ∧
    (∀ (t : BasketballTracker) (p : Position) (ts : ℚ), t.trajectory.length < 50 →
      (t.update (some p) ts).trajectory =
        t.trajectory ++ [{ position := p, timestamp := ts, x := p.1, y := p.2 }]) := by
  refine ⟨?_, ?_, ?_⟩
  · intro calls
    exact foldl_update_length_le calls BasketballTracker.init (by simp [BasketballTracker.init])
  · intro t p ts hfull
    simp only [BasketballTracker.update]
    rw [if_pos (by simp only [List.length_append, List.length_cons, List.length_nil]; omega)]
    cases htr : t.trajectory with
    | nil => rw [htr] at hfull; simp at hfull
    | cons a l => simp
  · intro t p ts hlt
    simp only [BasketballTracker.update]
    rw [if_neg (by simp only [List.length_append, List.length_cons, List.length_nil]; omega)]

/-- A sample used to build a full 50-entry window. -/
def c5Sample : TrajectorySample :=
  { position := (0, 0), timestamp := 0, x := 0, y := 0 }

/-- A tracker whose window is exactly at the 50-sample capacity. -/
def c5Full : BasketballTracker :=
  { trajectory := List.replicate 50 c5Sample
  , last_position := some (0, 0), shot_threshold := 30, shots := [] }

/-- Witness for C5: one eviction step on a full window and one plain
append on the empty window. -/
theorem c5_witness :
    (c5Full.update (some (1, 2)) 3).trajectory =
      c5Full.trajectory.tail ++ [{ position := (1, 2), timestamp := 3, x := 1, y := 2 }] ∧
    (BasketballTracker.init.update (some (1, 2)) 3).trajectory =
      BasketballTracker.init.trajectory ++
        [{ position := (1, 2), timestamp := 3, x := 1, y := 2 }] :=
  ⟨c5_window_spec.2.1 c5Full (1, 2) 3 (by simp [c5Full]),
   c5_window_spec.2.2 BasketballTracker.init (1, 2) 3 (by simp [BasketballTracker.init])⟩

/-- C6: `update` with a `None` position changes nothing: window, last
position, and indeed the whole tracker state are untouched. -/
theorem c6_update_none_noop (t : BasketballTracker) (ts : ℚ) :
    (t.update none ts).trajectory = t.trajectory ∧
    (t.update none ts).last_position = t.last_position ∧
    t.update none ts = t :=
  ⟨rfl, rfl, rfl⟩

/-- C7: whenever any step of the localization pipeline fails, the
`except` handler of `detect_basketball_in_frame` turns the failure into
"no detection"; the function itself is total and never propagates the
error. -/
theorem c7_locate_catches {F H M C : Type} (ops : CVOps F H M C) (frame : F) (e : String)
    (hfail : detect_pipeline ops frame = Except.error e) :
    detect_basketball_in_frame ops frame = none := by
  unfold detect_basketball_in_frame
  rw [hfail]

/-- An operation set whose color conversion (the first pipeline step)
always fails. -/
def c7Ops : CVOps Unit Unit Unit Unit :=
  { cvtColor := fun _ => Except.error "cv failure"
  , inRange := fun _ => Except.error "cv failure"
  , morphOpen := fun _ => Except.error "cv failure"
  , morphClose := fun _ => Except.error "cv failure"
  , houghCircles := fun _ => Except.error "cv failure"
  , findContours := fun _ => Except.error "cv failure"
  , contourArea := fun _ => Except.error "cv failure"
  , moments := fun _ => Except.error "cv failure" }

/-- Witness for C7: with a failing first step the localizer returns
`none`. -/
theorem c7_witness : detect_basketball_in_frame c7Ops () = none :=
  c7_locate_catches c7Ops () "cv failure" rfl

/-- C8: `detect_shot` is read-only: the state it returns is the state it
received, its boolean agrees with the pure `detect_shot`, and calling it
twice in succession yields the same boolean. -/
theorem c8_detect_shot_readonly (t : BasketballTracker) :
    t.detect_shot_st.2 = t ∧
    t.detect_shot_st.1 = t.detect_shot ∧
    t.detect_shot_st.2.detect_shot_st.1 = t.detect_shot_st.1 := by
  have h2 : t.detect_shot_st.2 = t := by
    by_cases h : t.trajectory.length < 5 <;>
      simp [BasketballTracker.detect_shot_st, h]
  have h1 : t.detect_shot_st.1 = t.detect_shot := by
    by_cases h : t.trajectory.length < 5 <;>
      simp [BasketballTracker.detect_shot_st, BasketballTracker.detect_shot, h]
  exact ⟨h2, h1, by rw [h2]⟩

lemma runTracker_append (calls : List (Option Position × ℚ)) (c : Option Position × ℚ) :
    runTracker (calls ++ [c]) = (runTracker calls).update c.1 c.2 := by
  simp [runTracker, List.foldl_append]

lemma getLast?_tail_concat (l : List TrajectorySample) (a : TrajectorySample)
    (h : l ≠ []) : ((l ++ [a]).tail).getLast? = some a := by
  cases l with
  | nil => exact absurd rfl h
  | cons b bs => simp [List.getLast?_concat]

lemma update_trajectory_getLast (t : BasketballTracker) (p : Position) (ts : ℚ) :
    (t.update (some p) ts).trajectory.getLast? =
      some { position := p, timestamp := ts, x := p.1, y := p.2 } := by
  simp only [BasketballTracker.update]
  split_ifs with hgt
  · apply getLast?_tail_concat
    intro hnil
    rw [hnil] at hgt
    simp at hgt
  · exact List.getLast?_concat _

lemma runTracker_getLast (calls : List (Option Position × ℚ)) :
    ∀ s : TrajectorySample, (runTracker calls).trajectory.getLast? = some s →
      (runTracker calls).last_position = some s.position := by
  induction calls using List.reverseRecOn with
  | nil =>
    intro s hs
    simp [runTracker, BasketballTracker.init] at hs
  | append_singleton cs c ih =>
    rw [runTracker_append]
    cases hc : c.1 with
    | none =>
      intro s hs
      exact ih s hs
    | some p =>
      intro s hs
      rw [update_trajectory_getLast] at hs
      cases hs
      simp [BasketballTracker.update]

lemma runTracker_none (calls : List (Option Position × ℚ)) :
    (runTracker calls).last_position = none → ∀ c ∈ calls, c.1 = none := by
  induction calls using List.reverseRecOn with
  | nil =>
    intro _ c hc
    simp at hc
  | append_singleton cs c ih =>
    rw [runTracker_append]
    cases hc : c.1 with
    | none =>
      intro hn d hd
      rcases List.mem_append.1 hd with h | h
      · exact ih hn d h
      · rw [List.mem_singleton] at h
        rw [h]
        exact hc
    | some p =>
      intro hn
      simp [BasketballTracker.update] at hn

/-- C10: after any sequence of updates on a fresh tracker, a non-empty
window's last sample carries the last accepted position, and the last
accepted position can only be `none` when every update in the sequence
carried a `none` position. -/
theorem c10_last_position_spec (calls : List (Option Position × ℚ)) :
    (∀ s : TrajectorySample, (runTracker calls).trajectory.getLast? = some s →
      (runTracker calls).last_position = some s.position) ∧
    ((runTracker calls).last_position = none → ∀ c ∈ calls, c.1 = none) :=
  ⟨runTracker_getLast calls, runTracker_none calls⟩

/-- Witness for C10: a single accepting update, whose sample's position
is reported as the last accepted position. -/
theorem c10_witness :
    (runTracker [(some (3, 4), 7)]).last_position =
      some (({ position := (3, 4), timestamp := 7, x := 3, y := 4 } : TrajectorySample).position) :=
  (c10_last_position_spec [(some (3, 4), 7)]).1
    { position := (3, 4), timestamp := 7, x := 3, y := 4 } rfl

lemma stepFrame_shots_cases (tr : BasketballTracker) (shots : List ShotRecord)
    (i : Nat) (f : FrameInfo) :
    (stepFrame tr shots i f).2 = shots ∨
    ∃ rec : ShotRecord, (stepFrame tr shots i f).2 = shots ++ [rec] ∧
      rec.frame_index = i ∧ rec.timestamp = f.timestamp.getD ((i : ℚ) * 500) := by
  simp only [stepFrame]
  split
  · split
    · split
      · exact Or.inr ⟨_, rfl, rfl, rfl⟩
      · exact Or.inl rfl
    · exact Or.inl rfl
  · exact Or.inl rfl

lemma analyzeLoop_spec :
    ∀ (frames : List FrameInfo) (i : Nat) (tr : BasketballTracker)
      (shots : List ShotRecord),
      (∀ s ∈ shots, s.frame_index < i) →
      List.Pairwise (fun a b => a.frame_index < b.frame_index) shots →
      List.Pairwise (fun a b => a.frame_index < b.frame_index)
        (analyzeLoop i tr shots frames).2 ∧
      (∀ s ∈ (analyzeLoop i tr shots frames).2, s.frame_index < i + frames.length) ∧
      (∀ s ∈ (analyzeLoop i tr shots frames).2,
        s ∈ shots ∨ (i ≤ s.frame_index ∧
          ∃ f, frames.get? (s.frame_index - i) = some f ∧
            s.timestamp = f.timestamp.getD ((s.frame_index : ℚ) * 500)))
  | [], i, tr, shots, hbound, hpw => by
    simp only [analyzeLoop]
    refine ⟨hpw, fun s hs => ?_, fun s hs => Or.inl hs⟩
    simp only [List.length_nil, Nat.add_zero]
    exact hbound s hs
  | f :: rest, i, tr, shots, hbound, hpw => by
    simp only [analyzeLoop]
    rcases stepFrame_shots_cases tr shots i f with hcase | ⟨rec, hcase, hidx, hts⟩
    · rw [hcase]
      obtain ⟨ihpw, ihb, ihmem⟩ := analyzeLoop_spec rest (i + 1) (stepFrame tr shots i f).1 shots
        (fun s hs => Nat.lt_succ_of_lt (hbound s hs)) hpw
      refine ⟨ihpw, fun s hs => ?_, fun s hs => ?_⟩
      · have := ihb s hs
        simp only [List.length_cons]
        omega
      · rcases ihmem s hs with hmem | ⟨hle, f2, hget, hts2⟩
        · exact Or.inl hmem
        · refine Or.inr ⟨by omega, f2, ?_, hts2⟩
          have heq : s.frame_index - i = (s.frame_index - (i + 1)) + 1 := by omega
          rw [heq, List.get?_cons_succ]
          exact hget
    · rw [hcase]
      have hb2 : ∀ s ∈ shots ++ [rec], s.frame_index < i + 1 := by
        intro s hs
        rcases List.mem_append.1 hs with hmem | hmem
        · exact Nat.lt_succ_of_lt (hbound s hmem)
        · rw [List.mem_singleton] at hmem
          rw [hmem, hidx]
          omega
      have hp2 : List.Pairwise (fun a b => a.frame_index < b.frame_index) (shots ++ [rec]) := by
        rw [List.pairwise_append]
        refine ⟨hpw, List.pairwise_singleton _ _, fun a ha b hb => ?_⟩
        rw [List.mem_singleton] at hb
        rw [hb, hidx]
        exact hbound a ha
      obtain ⟨ihpw, ihb, ihmem⟩ := analyzeLoop_spec rest (i + 1) (stepFrame tr shots i f).1
        (shots ++ [rec]) hb2 hp2
      refine ⟨ihpw, fun s hs => ?_, fun s hs => ?_⟩
      · have := ihb s hs
        simp only [List.length_cons]
        omega
      · rcases ihmem s hs with hmem | ⟨hle, f2, hget, hts2⟩
        · rcases List.mem_append.1 hmem with hmem1 | hmem1
          · exact Or.inl hmem1
          · rw [List.mem_singleton] at hmem1
            subst hmem1
            refine Or.inr ⟨by rw [hidx], f, ?_, ?_⟩
            · rw [hidx, Nat.sub_self]
              rfl
            · rw [hidx]
              exact hts
        · refine Or.inr ⟨by omega, f2, ?_, hts2⟩
          have heq : s.frame_index - i = (s.frame_index - (i + 1)) + 1 := by omega
          rw [heq, List.get?_cons_succ]
          exact hget

/-- C9: in one analysis session at most one shot record arises per frame,
the `frame_index` fields of the returned shots are strictly increasing in
list order, and each record's timestamp is the (defaulted) timestamp of
its frame. -/
theorem c9_shots_monotone (frames : List FrameInfo) :
    List.Pairwise (fun a b => a.frame_index < b.frame_index)
      (analyze_frames frames).shots ∧
    ∀ s ∈ (analyze_frames frames).shots,
      ∃ f, frames.get? s.frame_index = some f ∧
        s.timestamp = f.timestamp.getD ((s.frame_index : ℚ) * 500) := by
  obtain ⟨hpw, -, hmem⟩ := analyzeLoop_spec frames 0 BasketballTracker.init []
    (by simp) List.Pairwise.nil
  have hview : (analyze_frames frames).shots =
      (analyzeLoop 0 BasketballTracker.init [] frames).2 := by
    simp only [analyze_frames]
  rw [hview]
  refine ⟨hpw, fun s hs => ?_⟩
  rcases hmem s hs with hmem1 | ⟨-, f, hget, hts⟩
  · simp at hmem1
  · rw [Nat.sub_zero] at hget
    exact ⟨f, hget, hts⟩

/-- A five-frame batch with one detection per frame, explicit caller
timestamps, and y values `[200, 200, 200, 160, 200]`; the deltas of the
five-sample window at frame 4 are `[0, 0, -40, 40]`, so a shot is
detected exactly there. -/
def c9Frames : List FrameInfo :=
  [ { decoded := true, ball := some (240, 200), timestamp := some 11, width := 480, height := 360 }
  , { decoded := true, ball := some (240, 200), timestamp := some 12, width := 480, height := 360 }
  , { decoded := true, ball := some (240, 200), timestamp := some 13, width := 480, height := 360 }
  , { decoded := true, ball := some (240, 160), timestamp := some 14, width := 480, height := 360 }
  , { decoded := true, ball := some (240, 200), timestamp := some 9, width := 480, height := 360 } ]

/-- The single shot record produced on `c9Frames`. -/
def c9Rec : ShotRecord :=
  { timestamp := 9
  , pos_x := ((240 : Int) : ℚ) / ((480 : Int) : ℚ)
  , pos_y := ((200 : Int) : ℚ) / ((360 : Int) : ℚ)
  , result := "miss"
  , confidence := 0.75
  , frame_index := 4 }

/-- Witness for C9: the record detected at frame 4 of `c9Frames` indeed
carries that frame's caller timestamp. -/
theorem c9_witness :
    ∃ f, c9Frames.get? c9Rec.frame_index = some f ∧
      c9Rec.timestamp = f.timestamp.getD ((c9Rec.frame_index : ℚ) * 500) :=
  (c9_shots_monotone c9Frames).2 c9Rec (List.Mem.head _)

end BBall
